import Mathlib

/-!
Shallow embedding of the "combine reports" orchestration of this repository.

The orchestrator lives in `src/frontend/src/ui/CombineReports.tsx`: a React
component holding an array of three upload slots, a `busy` flag, a session
`error` string and a `combinedTitle`.  Each handler of the component is
translated below as a pure state transformer; the asynchronous parts
(`api.convert`, `api.combine`) are split into a start event and a
completion event, so an execution of the component is a list of events
applied with `step`.  The transport client (`src/frontend/src/utils/api.ts`
and the fuller variant with `combine`) and the single-item submit handler
(`src/frontend/src/ui/App.tsx`, `onSubmit`) are embedded separately.
-/

namespace Textpress

/-- The `UploadStatus` union of `CombineReports.tsx`:
`"waiting" | "uploading" | "complete" | "error"`. -/
inductive UploadStatus where
  | waiting
  | uploading
  | complete
  | error
deriving DecidableEq, Repr

/-- The `UploadState` record of `CombineReports.tsx`.  A `File` is
represented by its name (the only property the orchestrator reads). -/
structure UploadState where
  id : Nat
  file : Option String
  status : UploadStatus
  docId : Option String
  title : Option String
deriving DecidableEq, Repr

/-- The React state of the `CombineReports` component: `uploads`, `busy`,
`error`, `combinedTitle`. -/
structure Session where
  uploads : List UploadState
  busy : Bool
  error : Option String
  combinedTitle : String
deriving DecidableEq, Repr

/-- The argument record of `api.combine`: `doc_ids`, `titles`,
`combined_title`. -/
structure CombineCall where
  doc_ids : List String
  titles : List String
  combined_title : String
deriving DecidableEq, Repr

/-- The response payload of `api.combine` (the argument of `onComplete`). -/
structure CombineResult where
  id : String
  public_url : String
  component_ids : List String
  component_urls : List String
deriving DecidableEq, Repr

/-- `next[index] = { ...next[index], ...patch }` of `updateUpload`:
apply `f` to the element at position `i`, leaving the rest unchanged. -/
def listModify (l : List UploadState) (i : Nat) (f : UploadState → UploadState) :
    List UploadState :=
  match l, i with
  | [], _ => []
  | a :: as, 0 => f a :: as
  | a :: as, n + 1 => a :: listModify as n f

/-- JavaScript truthiness of an optional string (`u.docId` is truthy iff it
is a non-null, non-empty string). -/
def optTruthy : Option String → Bool
  | some s => s ≠ ""
  | none => false

/-- `uploads.every((u) => u.status === "complete" && u.docId)` — the guard
of both the auto-combine effect and `combineIfReady`. -/
def allComplete (s : Session) : Bool :=
  s.uploads.all fun u => decide (u.status = UploadStatus.complete) && optTruthy u.docId

/-- `handleFileUpload`, up to the `await`:
`setError(null); updateUpload(index, { file, status: "uploading" })`. -/
def bindSlot (s : Session) (i : Nat) (name : String) : Session :=
  { s with
      error := none
      uploads := listModify s.uploads i fun u =>
        { u with file := some name, status := UploadStatus.uploading } }

/-- The success continuation of `handleFileUpload`:
`updateUpload(index, { status: "complete", docId: result.id, title: file.name })`.
`name` is the name of the file captured by the closure when the convert
started. -/
def convertOkSlot (s : Session) (i : Nat) (docId name : String) : Session :=
  { s with
      uploads := listModify s.uploads i fun u =>
        { u with status := UploadStatus.complete, docId := some docId,
                 title := some name } }

/-- The catch branch of `handleFileUpload`:
`updateUpload(index, { status: "error" }); setError(e?.message ?? "Upload failed")`. -/
def convertErrSlot (s : Session) (i : Nat) (msg : Option String) : Session :=
  { s with
      uploads := listModify s.uploads i fun u => { u with status := UploadStatus.error }
      error := some (msg.getD "Upload failed") }

/-- The Retry button of the error branch:
`updateUpload(idx, { status: "waiting", file: null, docId: null })`
(note: `title` is not cleared). -/
def resetSlot (s : Session) (i : Nat) : Session :=
  { s with
      uploads := listModify s.uploads i fun u =>
        { u with status := UploadStatus.waiting, file := none, docId := none } }

/-- The default per-slot title used by `combineIfReady`: `Report ${i + 1}`. -/
def defaultReportTitle (i : Nat) : String :=
  "Report " ++ toString (i + 1)

/-- `u.title || defaultReportTitle i` with JavaScript truthiness: a stored
empty-string title also falls back to the default. -/
def titleOr (t : Option String) (i : Nat) : String :=
  match t with
  | some v => if v = "" then defaultReportTitle i else v
  | none => defaultReportTitle i

/-- `uploads.map((u, i) => u.title || Report(i+1))`, carrying the running
index explicitly. -/
def titlesFrom (i : Nat) : List UploadState → List String
  | [] => []
  | u :: us => titleOr u.title i :: titlesFrom (i + 1) us

/-- The `api.combine` argument built by `combineIfReady`:
`doc_ids` is `uploads.map((u) => u.docId!)` (slot order), `titles` is
`uploads.map((u, i) => u.title || Report(i+1))`, `combined_title` is the
current `combinedTitle`. -/
def mkCall (s : Session) : CombineCall :=
  { doc_ids := s.uploads.map fun u => u.docId.getD ""
    titles := titlesFrom 0 s.uploads
    combined_title := s.combinedTitle }

/-- A whole-system state: the component state, the outstanding Combine
request, and the histories of issued Combine calls and of `onComplete`
invocations. -/
structure Sys where
  session : Session
  pending : Option CombineCall
  calls : List CombineCall
  completions : List CombineResult
deriving DecidableEq, Repr

/-- The initial `useState` of `CombineReports`. -/
def initSession : Session :=
  { uploads :=
      [ { id := 1, file := none, status := UploadStatus.waiting, docId := none, title := none }
      , { id := 2, file := none, status := UploadStatus.waiting, docId := none, title := none }
      , { id := 3, file := none, status := UploadStatus.waiting, docId := none, title := none } ]
    busy := false
    error := none
    combinedTitle := "Combined Research Report" }

/-- The initial whole-system state. -/
def initSys : Sys :=
  { session := initSession, pending := none, calls := [], completions := [] }

/-- Events of an execution of the component.  `bind` is a file being
dropped on slot `i` (the synchronous prefix of `handleFileUpload`);
`convertOk`/`convertErr` are the resolution of that slot's `api.convert`
call; `reset` is the Retry button; `fireEffect` is a run of the
auto-combine `useEffect` whose guard holds (it dispatches `combineIfReady`
up to the `await`); `combineOk`/`combineErr` are the resolution of the
outstanding `api.combine` call (both run the `finally { setBusy(false) }`). -/
inductive Action where
  | bind (i : Nat) (name : String)
  | convertOk (i : Nat) (docId name : String)
  | convertErr (i : Nat) (msg : Option String)
  | reset (i : Nat)
  | setTitle (t : String)
  | fireEffect
  | combineOk (r : CombineResult)
  | combineErr (msg : Option String)
deriving DecidableEq, Repr

/-- `combineIfReady` up to its `await`: `setBusy(true); setError(null)` and
the Combine request is issued with the current snapshot. -/
def dispatchCombine (sys : Sys) : Sys :=
  { sys with
      session := { sys.session with busy := true, error := none }
      pending := some (mkCall sys.session)
      calls := sys.calls ++ [mkCall sys.session] }

/-- One event of the component, as the code executes it.  `none` means the
event is not enabled in this state (the Retry button only exists on an
`error` slot; the effect only dispatches when `!busy` and every slot is
complete with a truthy doc id; a Combine resolution needs an outstanding
Combine call). -/
def step (sys : Sys) : Action → Option Sys
  | Action.bind i name =>
      if i < sys.session.uploads.length then
        some { sys with session := bindSlot sys.session i name }
      else none
  | Action.convertOk i docId name =>
      if i < sys.session.uploads.length then
        some { sys with session := convertOkSlot sys.session i docId name }
      else none
  | Action.convertErr i msg =>
      if i < sys.session.uploads.length then
        some { sys with session := convertErrSlot sys.session i msg }
      else none
  | Action.reset i =>
      match (sys.session.uploads.get? i).map UploadState.status with
      | some UploadStatus.error => some { sys with session := resetSlot sys.session i }
      | _ => none
  | Action.setTitle t =>
      some { sys with session := { sys.session with combinedTitle := t } }
  | Action.fireEffect =>
      if !sys.session.busy && allComplete sys.session then
        some (dispatchCombine sys)
      else none
  | Action.combineOk r =>
      match sys.pending with
      | some _ =>
          some { sys with
                   session := { sys.session with busy := false }
                   pending := none
                   completions := sys.completions ++ [r] }
      | none => none
  | Action.combineErr msg =>
      match sys.pending with
      | some _ =>
          some { sys with
                   session := { sys.session with
                                  busy := false
                                  error := some (msg.getD "Combine failed") }
                   pending := none }
      | none => none

/-- Run a list of events from a state; `none` if any event is not enabled. -/
def run (sys : Sys) : List Action → Option Sys
  | [] => some sys
  | a :: as =>
      match step sys a with
      | some s' => run s' as
      | none => none

/-- `step` restricted to disciplined schedules: a file is bound only to a
`waiting` or `error` slot, and a convert resolution arrives only for a slot
that is `uploading`.  The component itself imposes no such guard (its
`DropZone` is rendered for every slot in every status), so `gstep` is a
strict restriction of `step`. -/
def gstep (sys : Sys) (a : Action) : Option Sys :=
  match a with
  | Action.bind i _ =>
      match (sys.session.uploads.get? i).map UploadState.status with
      | some UploadStatus.waiting => step sys a
      | some UploadStatus.error => step sys a
      | _ => none
  | Action.convertOk i _ _ =>
      match (sys.session.uploads.get? i).map UploadState.status with
      | some UploadStatus.uploading => step sys a
      | _ => none
  | Action.convertErr i _ =>
      match (sys.session.uploads.get? i).map UploadState.status with
      | some UploadStatus.uploading => step sys a
      | _ => none
  | _ => step sys a

/-- Run a list of events under the disciplined schedule restriction. -/
def grun (sys : Sys) : List Action → Option Sys
  | [] => some sys
  | a :: as =>
      match gstep sys a with
      | some s' => grun s' as
      | none => none

/-- The per-slot invariant claimed by the spec: the document id is present
iff the slot is `complete`, and the input file is absent iff the slot is
`waiting`. -/
def slotInv (u : UploadState) : Prop :=
  (u.docId.isSome ↔ u.status = UploadStatus.complete) ∧
  (u.file.isNone ↔ u.status = UploadStatus.waiting)

/-- The invariant over every slot of a session. -/
def sessionInv (s : Session) : Prop :=
  ∀ i u, s.uploads.get? i = some u → slotInv u

/-! ## Transport client (`api.ts`) and single-item submit (`App.tsx`) -/

/-- A `File` as the validation code sees it: name and byte size. -/
structure FileV where
  name : String
  size : Nat
deriving DecidableEq, Repr

/-- The multipart form `api.convert` builds: a field is appended only when
its value is truthy (`if (file) ...; if (text) ...; if (url) ...`). -/
structure ConvertForm where
  file : Option FileV
  text : Option String
  url : Option String
deriving DecidableEq, Repr

/-- `api.convert({file, text, url})` form construction from the raw state
values of `App.tsx` (empty strings are falsy and are not appended). -/
def buildForm (file : Option FileV) (text url : String) : ConvertForm :=
  { file := file
    text := if text = "" then none else some text
    url := if url = "" then none else some url }

/-- The network's answer to a convert request.  `err status body` is a
non-`ok` response; `body` is `none` when the response body is not JSON,
`some none` when it is JSON without a string `error` field, and
`some (some e)` when it carries `{ error: e }`. -/
inductive NetResp where
  | ok (id publicUrl : String)
  | err (status : Nat) (body : Option (Option String))
deriving DecidableEq, Repr

/-- What a call to `api.convert` does: `sent` records that the request was
issued to the network, `result` is the resolved value or the thrown
`Error`'s message. -/
structure ConvertOutcome where
  sent : Bool
  result : Except String (String × String)
deriving Repr

/-- The error message `api.convert` throws on a non-ok response:
`let msg = Request failed (status); if (data?.error) msg = data.error`. -/
def convertErrorMsg (status : Nat) (body : Option (Option String)) : String :=
  match body with
  | some (some e) => if e = "" then "Request failed (" ++ toString status ++ ")" else e
  | _ => "Request failed (" ++ toString status ++ ")"

/-- `api.convert` of `src/frontend/src/utils/api.ts`: it performs no
validation of the form whatsoever and always issues the request; the
outcome is determined entirely by the network's response. -/
def apiConvert (_form : ConvertForm) (resp : NetResp) : ConvertOutcome :=
  { sent := true
    result :=
      match resp with
      | NetResp.ok i u => Except.ok (i, u)
      | NetResp.err st body => Except.error (convertErrorMsg st body) }

/-- The error message `api.combine` throws on a non-ok response (it never
parses the body): `Combine failed: ${status}`. -/
def combineErrorMsg (status : Nat) : String :=
  "Combine failed: " ++ toString status

/-- JavaScript `String.prototype.trim()`: strip leading and trailing
whitespace. -/
def strTrim (s : String) : String :=
  String.mk (((s.data.dropWhile Char.isWhitespace).reverse.dropWhile
    Char.isWhitespace).reverse)

/-- The input mode of `App.tsx`. -/
inductive Mode where
  | file
  | text
  | url
deriving DecidableEq, Repr

/-- The mode-gated validation block at the head of `onSubmit` in
`App.tsx`; `some m` is the message of the `Error` it throws, `none` means
validation passed.  URL parsability (`new URL(url)`) is abstracted as the
`urlValid` predicate. -/
def validateSubmit (mode : Mode) (file : Option FileV) (text url : String)
    (urlValid : String → Bool) : Option String :=
  match mode with
  | Mode.file =>
      match file with
      | none => some "Please select a .docx/.md/.txt file"
      | some f =>
          if 15 * 1024 * 1024 < f.size then some "File too large (max 15MB)" else none
  | Mode.text =>
      if strTrim text = "" then some "Please paste or type some text"
      else if 2000000 < text.length then some "Text too long (max ~2MB)" else none
  | Mode.url =>
      if strTrim url = "" then some "Please enter a URL"
      else if urlValid url then none else some "Invalid URL"

/-- The observable outcome of one `onSubmit` run: whether `api.convert`
was invoked, and the final `error` / `publicUrl` state. -/
structure AppResult where
  convertCalled : Bool
  error : Option String
  publicUrl : Option String
deriving DecidableEq, Repr

/-- `onSubmit` of `App.tsx`: validate by mode; on a validation error the
catch sets `error` and `api.convert` is never reached; otherwise
`api.convert({ file, text, url })` is awaited and its outcome recorded. -/
def onSubmit (mode : Mode) (file : Option FileV) (text url : String)
    (urlValid : String → Bool) (resp : NetResp) : AppResult :=
  match validateSubmit mode file text url urlValid with
  | some m => { convertCalled := false, error := some m, publicUrl := none }
  | none =>
      match (apiConvert (buildForm file text url) resp).result with
      | Except.ok (_, pu) => { convertCalled := true, error := none, publicUrl := some pu }
      | Except.error m => { convertCalled := true, error := some m, publicUrl := none }

/-! ## Helper lemmas -/

/-- `listModify` touches exactly position `i`. -/
theorem listModify_get? (l : List UploadState) (i : Nat) (f : UploadState → UploadState)
    (j : Nat) :
    (listModify l i f).get? j = if j = i then (l.get? j).map f else l.get? j := by
  induction l generalizing i j with
  | nil => simp [listModify]
  | cons a as ih =>
      cases i with
      | zero =>
          cases j with
          | zero => simp [listModify]
          | succ m => simp [listModify]
      | succ n =>
          cases j with
          | zero => simp [listModify]
          | succ m =>
              have h := ih n m
              by_cases hmn : m = n
              · subst hmn
                simp [listModify, List.get?] at h ⊢
                simpa using h
              · have hmn' : ¬ (m + 1 = n + 1) := by omega
                simp [listModify, List.get?, hmn, hmn'] at h ⊢
                simpa [hmn] using h

/-- `titlesFrom` produces one title per slot. -/
theorem titlesFrom_length (l : List UploadState) (k : Nat) :
    (titlesFrom k l).length = l.length := by
  induction l generalizing k with
  | nil => rfl
  | cons u us ih => simp [titlesFrom, ih]

/-- The title at position `i` of `titlesFrom k l`. -/
theorem titlesFrom_get? (l : List UploadState) (k i : Nat) :
    (titlesFrom k l).get? i = (l.get? i).map fun u => titleOr u.title (k + i) := by
  induction l generalizing k i with
  | nil => simp [titlesFrom]
  | cons u us ih =>
      cases i with
      | zero => simp [titlesFrom]
      | succ m =>
          have h := ih (k + 1) m
          have e : k + 1 + m = k + (m + 1) := by omega
          simp only [titlesFrom, List.get?]
          rw [h, e]

/-! ## Concrete example states shared by several witnesses -/

/-- A completed slot, as left by `handleFileUpload`'s success branch. -/
def doneSlot (n : Nat) (nm did : String) : UploadState :=
  { id := n, file := some nm, status := UploadStatus.complete, docId := some did,
    title := some nm }

/-- A session with all three slots complete and a Combine call outstanding
(`busy` is true, as `combineIfReady` sets it before the request). -/
def exReadySession : Session :=
  { uploads := [doneSlot 1 "A.docx" "idA", doneSlot 2 "B.docx" "idB", doneSlot 3 "C.docx" "idC"]
    busy := true
    error := none
    combinedTitle := "Combined Research Report" }

/-- The whole-system state in which a Combine call is outstanding. -/
def exPendingSys : Sys :=
  { session := exReadySession
    pending := some (mkCall exReadySession)
    calls := [mkCall exReadySession]
    completions := [] }

/-! ## C1 -/

/-- C1, counterexample.  The claim says Combine is invoked at most once per
session because a `joinFired` latch stays true after a success.  The code
has no such latch: after the Combine call succeeds, `setBusy(false)` in the
`finally` re-runs the auto-combine effect, whose guard (`!busy` and all
slots complete) holds again, so a second Combine call is issued.  In this
run one Combine succeeded (`completions.length = 1`) and two Combine calls
were issued (`calls.length = 2`), with no slot ever reset. -/
theorem combine_invoked_twice_after_success :
    (run initSys
      [Action.bind 0 "A.docx", Action.bind 1 "B.docx", Action.bind 2 "C.docx",
       Action.convertOk 0 "idA" "A.docx", Action.convertOk 1 "idB" "B.docx",
       Action.convertOk 2 "idC" "C.docx", Action.fireEffect,
       Action.combineOk
         { id := "cid", public_url := "u", component_ids := ["idA", "idB", "idC"],
           component_urls := ["uA", "uB", "uC"] },
       Action.fireEffect]).map (fun s => (s.calls.length, s.completions.length))
      = some (2, 1) := by
  rfl

/-- C1, amended.  What the code guarantees instead of a permanent latch:
while a Combine call is outstanding, `busy` blocks the effect from
dispatching a second one; but once the call succeeds, the effect re-fires
on the still-complete slots and issues a new Combine invocation — there is
no `joinFired` latch, so Combine is not invoked at most once per session. -/
theorem busy_blocks_dispatch_but_combine_refires_after_success
    (sys : Sys) (c : CombineCall) (r : CombineResult)
    (hp : sys.pending = some c) (hb : sys.session.busy = true)
    (hall : allComplete sys.session = true) :
    step sys Action.fireEffect = none ∧
    ∃ sys1, step sys (Action.combineOk r) = some sys1 ∧
      sys1.completions = sys.completions ++ [r] ∧
      ∃ sys2, step sys1 Action.fireEffect = some sys2 ∧
        sys2.calls = sys.calls ++ [mkCall sys1.session] := by
  refine ⟨by simp [step, hb], ?_⟩
  refine ⟨{ sys with
              session := { sys.session with busy := false }
              pending := none
              completions := sys.completions ++ [r] }, ?_, rfl, ?_⟩
  · simp [step, hp]
  · have hall1 : allComplete { sys.session with busy := false } = true := hall
    exact ⟨dispatchCombine
      { sys with
          session := { sys.session with busy := false }
          pending := none
          completions := sys.completions ++ [r] }, by simp [step, hall1], rfl⟩

/-- C1, witness for the amended theorem at a concrete outstanding-Combine
state. -/
theorem busy_blocks_dispatch_but_combine_refires_after_success_witness :
    step exPendingSys Action.fireEffect = none ∧
    ∃ sys1, step exPendingSys
        (Action.combineOk
          { id := "cid", public_url := "u", component_ids := ["idA", "idB", "idC"],
            component_urls := ["uA", "uB", "uC"] }) = some sys1 ∧
      sys1.completions = exPendingSys.completions ++
        [{ id := "cid", public_url := "u", component_ids := ["idA", "idB", "idC"],
           component_urls := ["uA", "uB", "uC"] }] ∧
      ∃ sys2, step sys1 Action.fireEffect = some sys2 ∧
        sys2.calls = exPendingSys.calls ++ [mkCall sys1.session] :=
  busy_blocks_dispatch_but_combine_refires_after_success exPendingSys
    (mkCall exReadySession)
    { id := "cid", public_url := "u", component_ids := ["idA", "idB", "idC"],
      component_urls := ["uA", "uB", "uC"] }
    rfl rfl (by decide)

/-! ## C2 -/

/-- C2, counterexample.  The claim says that after a Combine failure a new
Combine attempt is issued only when the user re-triggers the all-complete
condition.  In the code, the `finally { setBusy(false) }` of the failed
call re-runs the auto-combine effect, whose guard still holds, so a second
Combine call is issued with no user event at all: the last two events of
this run are the Combine failure and the effect re-run, and two Combine
calls end up issued. -/
theorem combine_retried_without_user_event :
    (run initSys
      [Action.bind 0 "A.docx", Action.bind 1 "B.docx", Action.bind 2 "C.docx",
       Action.convertOk 0 "idA" "A.docx", Action.convertOk 1 "idB" "B.docx",
       Action.convertOk 2 "idC" "C.docx", Action.fireEffect,
       Action.combineErr (some "Combine failed: 500"),
       Action.fireEffect]).map (fun s => s.calls.length)
      = some 2 := by
  rfl

/-- C2, amended.  After a Combine failure the code automatically retries:
`busy` returns to false, the error is recorded, and the auto-combine
effect — with no user action — re-observes the still-all-complete state
and issues exactly one new Combine attempt (a further dispatch is blocked
by `busy` until that attempt resolves). -/
theorem combine_auto_retries_after_failure
    (sys : Sys) (c : CombineCall) (msg : String)
    (hp : sys.pending = some c) (hall : allComplete sys.session = true) :
    ∃ sys1, step sys (Action.combineErr (some msg)) = some sys1 ∧
      sys1.session.error = some msg ∧ sys1.session.busy = false ∧
      ∃ sys2, step sys1 Action.fireEffect = some sys2 ∧
        sys2.calls = sys1.calls ++ [mkCall sys1.session] ∧
        step sys2 Action.fireEffect = none := by
  refine ⟨{ sys with
              session := { sys.session with
                             busy := false
                             error := some msg }
              pending := none }, ?_, rfl, rfl, ?_⟩
  · simp [step, hp]
  · have hall1 : allComplete { sys.session with busy := false, error := some msg } = true :=
      hall
    refine ⟨dispatchCombine
      { sys with
          session := { sys.session with
                         busy := false
                         error := some msg }
          pending := none }, by simp [step, hall1], rfl, ?_⟩
    simp [step, dispatchCombine]

/-- C2, witness for the amended theorem at a concrete outstanding-Combine
state. -/
theorem combine_auto_retries_after_failure_witness :
    ∃ sys1, step exPendingSys (Action.combineErr (some "Combine failed: 500")) = some sys1 ∧
      sys1.session.error = some "Combine failed: 500" ∧ sys1.session.busy = false ∧
      ∃ sys2, step sys1 Action.fireEffect = some sys2 ∧
        sys2.calls = sys1.calls ++ [mkCall sys1.session] ∧
        step sys2 Action.fireEffect = none :=
  combine_auto_retries_after_failure exPendingSys (mkCall exReadySession)
    "Combine failed: 500" rfl (by decide)

/-! ## C3 -/

/-- The file bound to slot `i` in the three-slot scenario. -/
def slotFileName : Nat → String
  | 0 => "A.docx"
  | 1 => "B.docx"
  | _ => "C.docx"

/-- The document id the conversion of slot `i` yields in the scenario. -/
def slotDocId : Nat → String
  | 0 => "idA"
  | 1 => "idB"
  | _ => "idC"

/-- C3.  For every order `bp` in which the three inputs are bound and every
order `cp` in which the three conversions complete, the single Combine call
issued when the last conversion lands receives the document ids in slot
order `[idA, idB, idC]`, not in completion order. -/
theorem combine_docIds_in_slot_order (bp cp : List Nat)
    (hb : bp.Perm [0, 1, 2]) (hc : cp.Perm [0, 1, 2]) :
    (run initSys
      (bp.map (fun i => Action.bind i (slotFileName i)) ++
       cp.map (fun i => Action.convertOk i (slotDocId i) (slotFileName i)) ++
       [Action.fireEffect])).map (fun s => s.calls.map CombineCall.doc_ids)
      = some [["idA", "idB", "idC"]] := by
  have hb' : bp ∈ ([0, 1, 2] : List Nat).permutations' := List.mem_permutations'.2 hb
  have hc' : cp ∈ ([0, 1, 2] : List Nat).permutations' := List.mem_permutations'.2 hc
  have e : ([0, 1, 2] : List Nat).permutations' =
      [[0, 1, 2], [1, 0, 2], [1, 2, 0], [0, 2, 1], [2, 0, 1], [2, 1, 0]] := by decide
  rw [e] at hb' hc'
  fin_cases hb' <;> fin_cases hc' <;> rfl

/-- C3, witness: inputs bound in order C, A, B and completions arriving in
order B, A, C still yield `[idA, idB, idC]`. -/
theorem combine_docIds_in_slot_order_witness :
    (run initSys
      (([2, 0, 1] : List Nat).map (fun i => Action.bind i (slotFileName i)) ++
       ([1, 0, 2] : List Nat).map (fun i => Action.convertOk i (slotDocId i) (slotFileName i)) ++
       [Action.fireEffect])).map (fun s => s.calls.map CombineCall.doc_ids)
      = some [["idA", "idB", "idC"]] :=
  combine_docIds_in_slot_order [2, 0, 1] [1, 0, 2] (by decide) (by decide)

/-! ## C4 -/

/-- If the invariant holds at a slot whose status is not `complete`, its
document id is absent. -/
theorem docId_none_of_not_complete (u : UploadState) (h : slotInv u)
    (hne : u.status ≠ UploadStatus.complete) : u.docId = none := by
  cases hd : u.docId with
  | none => rfl
  | some v => exact absurd (h.1.1 (by simp [hd])) hne

/-- If the invariant holds at a slot whose status is not `waiting`, its
input file is present. -/
theorem file_present_of_not_waiting (u : UploadState) (h : slotInv u)
    (hne : u.status ≠ UploadStatus.waiting) : u.file.isNone = false := by
  cases hf : u.file with
  | none => exact absurd (h.2.1 (by simp [hf])) hne
  | some v => simp

/-- Modifying slot `i` preserves the session invariant provided the
modification preserves the slot invariant at slot `i`. -/
theorem sessionInv_listModify (s : Session) (i : Nat) (f : UploadState → UploadState)
    (hInv : sessionInv s)
    (hf : ∀ u, s.uploads.get? i = some u → slotInv u → slotInv (f u)) :
    ∀ j u', (listModify s.uploads i f).get? j = some u' → slotInv u' := by
  intro j u' hj
  rw [listModify_get?] at hj
  by_cases hji : j = i
  · subst hji
    rw [if_pos rfl] at hj
    cases hu : s.uploads.get? j with
    | none => rw [hu] at hj; simp at hj
    | some u =>
        rw [hu] at hj
        simp only [Option.map_some'] at hj
        injection hj with hj
        exact hj ▸ hf u hu (hInv j u hu)
  · rw [if_neg hji] at hj
    exact hInv j u' hj

/-- One guarded event preserves the per-slot invariant. -/
theorem gstep_preserves_sessionInv (sys sys' : Sys) (a : Action)
    (hInv : sessionInv sys.session) (h : gstep sys a = some sys') :
    sessionInv sys'.session := by
  cases a with
  | bind i name =>
      simp only [gstep] at h
      split at h <;> try exact Option.noConfusion h
      case _ heq =>
        simp only [step] at h
        split at h
        · injection h with h
          subst h
          intro j u' hj
          refine sessionInv_listModify sys.session i _ hInv ?_ j u' hj
          intro u hu hInvU
          rcases Option.map_eq_some'.1 heq with ⟨u0, hu0, hst⟩
          rw [hu0] at hu
          injection hu with hu
          subst hu
          have hd : u0.docId = none :=
            docId_none_of_not_complete u0 hInvU (by rw [hst]; simp)
          simp [slotInv, hd]
        · exact Option.noConfusion h
      case _ heq =>
        simp only [step] at h
        split at h
        · injection h with h
          subst h
          intro j u' hj
          refine sessionInv_listModify sys.session i _ hInv ?_ j u' hj
          intro u hu hInvU
          rcases Option.map_eq_some'.1 heq with ⟨u0, hu0, hst⟩
          rw [hu0] at hu
          injection hu with hu
          subst hu
          have hd : u0.docId = none :=
            docId_none_of_not_complete u0 hInvU (by rw [hst]; simp)
          simp [slotInv, hd]
        · exact Option.noConfusion h
  | convertOk i docId name =>
      simp only [gstep] at h
      split at h <;> try exact Option.noConfusion h
      case _ heq =>
        simp only [step] at h
        split at h
        · injection h with h
          subst h
          intro j u' hj
          refine sessionInv_listModify sys.session i _ hInv ?_ j u' hj
          intro u hu hInvU
          rcases Option.map_eq_some'.1 heq with ⟨u0, hu0, hst⟩
          rw [hu0] at hu
          injection hu with hu
          subst hu
          have hf : u0.file.isNone = false :=
            file_present_of_not_waiting u0 hInvU (by rw [hst]; simp)
          simp [slotInv, hf]
        · exact Option.noConfusion h
  | convertErr i msg =>
      simp only [gstep] at h
      split at h <;> try exact Option.noConfusion h
      case _ heq =>
        simp only [step] at h
        split at h
        · injection h with h
          subst h
          intro j u' hj
          refine sessionInv_listModify sys.session i _ hInv ?_ j u' hj
          intro u hu hInvU
          rcases Option.map_eq_some'.1 heq with ⟨u0, hu0, hst⟩
          rw [hu0] at hu
          injection hu with hu
          subst hu
          have hd : u0.docId = none :=
            docId_none_of_not_complete u0 hInvU (by rw [hst]; simp)
          have hf : u0.file.isNone = false :=
            file_present_of_not_waiting u0 hInvU (by rw [hst]; simp)
          simp [slotInv, hd, hf]
        · exact Option.noConfusion h
  | reset i =>
      simp only [gstep, step] at h
      split at h <;> try exact Option.noConfusion h
      injection h with h
      subst h
      intro j u' hj
      refine sessionInv_listModify sys.session i _ hInv ?_ j u' hj
      intro u _ _
      simp [slotInv]
  | setTitle t =>
      simp only [gstep, step] at h
      injection h with h
      subst h
      exact fun j u hj => hInv j u hj
  | fireEffect =>
      simp only [gstep, step] at h
      split at h
      · injection h with h
        subst h
        exact fun j u hj => hInv j u hj
      · exact Option.noConfusion h
  | combineOk r =>
      simp only [gstep, step] at h
      split at h <;> try exact Option.noConfusion h
      injection h with h
      subst h
      exact fun j u hj => hInv j u hj
  | combineErr msg =>
      simp only [gstep, step] at h
      split at h <;> try exact Option.noConfusion h
      injection h with h
      subst h
      exact fun j u hj => hInv j u hj

/-- A guarded run preserves the per-slot invariant. -/
theorem grun_preserves_sessionInv (as : List Action) (sys sys' : Sys)
    (hInv : sessionInv sys.session) (h : grun sys as = some sys') :
    sessionInv sys'.session := by
  induction as generalizing sys with
  | nil =>
      simp only [grun] at h
      injection h with h
      subst h
      exact hInv
  | cons a as ih =>
      simp only [grun] at h
      cases hg : gstep sys a with
      | none => rw [hg] at h; simp at h
      | some s1 =>
          rw [hg] at h
          exact ih s1 (gstep_preserves_sessionInv sys s1 a hInv hg) h

/-- The per-slot invariant is decidable. -/
instance instDecidableSlotInv (u : UploadState) : Decidable (slotInv u) := by
  unfold slotInv
  infer_instance

/-- Every slot of the initial session satisfies the invariant. -/
theorem initSession_sessionInv : sessionInv initSession := by
  intro i u h
  have hall : ∀ v ∈ initSession.uploads, slotInv v := by decide
  exact hall u (List.get?_mem h)

/-- C4, counterexample.  The claim says the invariant `docId` set iff
status `Complete` is preserved by every operation, including bind.  But
`handleFileUpload` has no status guard and does not clear `docId`: after a
slot completes with document id `d1`, dropping a second file on the same
slot leaves the session with a slot that is `uploading` yet still carries
`docId = d1`, violating the invariant. -/
theorem slot_invariant_broken_by_rebinding_complete_slot :
    (run initSys
      [Action.bind 0 "a.docx", Action.convertOk 0 "d1" "a.docx",
       Action.bind 0 "b.docx"]).map (fun s => s.session.uploads.get? 0)
      = some (some { id := 1, file := some "b.docx", status := UploadStatus.uploading,
                     docId := some "d1", title := some "a.docx" }) ∧
    ¬ slotInv { id := 1, file := some "b.docx", status := UploadStatus.uploading,
                docId := some "d1", title := some "a.docx" } :=
  ⟨rfl, by decide⟩

/-- C4, amended.  The invariant — `docId` present iff the slot is
`complete`, and the input file absent iff the slot is `waiting` — holds in
every state reachable by schedules in which files are bound only to
`waiting` or `error` slots and convert resolutions arrive only at
`uploading` slots.  (The code itself does not enforce the bind guard:
rebinding a non-waiting slot breaks the invariant, see the
counterexample.) -/
theorem slot_invariant_under_guarded_schedules (as : List Action) (sys' : Sys)
    (h : grun initSys as = some sys') : sessionInv sys'.session :=
  grun_preserves_sessionInv as initSys sys' initSession_sessionInv h

/-- C4, witness: the state after binding a file to slot 0 of the initial
session satisfies the invariant. -/
theorem slot_invariant_under_guarded_schedules_witness :
    sessionInv
      { uploads :=
          [ { id := 1, file := some "a.docx", status := UploadStatus.uploading,
              docId := none, title := none }
          , { id := 2, file := none, status := UploadStatus.waiting, docId := none,
              title := none }
          , { id := 3, file := none, status := UploadStatus.waiting, docId := none,
              title := none } ]
        busy := false
        error := none
        combinedTitle := "Combined Research Report" } :=
  slot_invariant_under_guarded_schedules [Action.bind 0 "a.docx"]
    { session :=
        { uploads :=
            [ { id := 1, file := some "a.docx", status := UploadStatus.uploading,
                docId := none, title := none }
            , { id := 2, file := none, status := UploadStatus.waiting, docId := none,
                title := none }
            , { id := 3, file := none, status := UploadStatus.waiting, docId := none,
                title := none } ]
          busy := false
          error := none
          combinedTitle := "Combined Research Report" }
      pending := none
      calls := []
      completions := [] }
    rfl

/-! ## C5 -/

/-- C5, counterexample.  The claim says the Transport Client's convert
fails client-side (`InvalidInputError` / `SizeLimitError`) and the request
is never sent when no input is supplied or the payload is oversized.  In
the code, `api.convert` performs no validation at all: called with no
file, no text and no url it still issues the network request, and if the
server answers 200 the call even succeeds. -/
theorem convert_sends_request_without_any_validation :
    (apiConvert { file := none, text := none, url := none }
      (NetResp.ok "d1" "u1")).sent = true ∧
    (apiConvert { file := none, text := none, url := none }
      (NetResp.ok "d1" "u1")).result = Except.ok ("d1", "u1") :=
  ⟨rfl, rfl⟩

/-- C5, amended.  The client-side validation lives in the caller
(`onSubmit` of `App.tsx`), not in the transport client, and is gated on
the selected mode: in file mode a missing file or a file larger than 15 MB
raises a validation error before `api.convert` is invoked, and in text
mode blank text or text longer than 2,000,000 characters does likewise;
the errors are plain messages, not distinct `InvalidInputError` /
`SizeLimitError` values. -/
theorem onSubmit_validates_before_convert :
    (∀ (t u : String) (uv : String → Bool) (resp : NetResp),
      onSubmit Mode.file none t u uv resp =
        { convertCalled := false, error := some "Please select a .docx/.md/.txt file",
          publicUrl := none }) ∧
    (∀ (f : FileV) (t u : String) (uv : String → Bool) (resp : NetResp),
      15 * 1024 * 1024 < f.size →
      onSubmit Mode.file (some f) t u uv resp =
        { convertCalled := false, error := some "File too large (max 15MB)",
          publicUrl := none }) ∧
    (∀ (fi : Option FileV) (t u : String) (uv : String → Bool) (resp : NetResp),
      strTrim t = "" →
      onSubmit Mode.text fi t u uv resp =
        { convertCalled := false, error := some "Please paste or type some text",
          publicUrl := none }) ∧
    (∀ (fi : Option FileV) (t u : String) (uv : String → Bool) (resp : NetResp),
      strTrim t ≠ "" → 2000000 < t.length →
      onSubmit Mode.text fi t u uv resp =
        { convertCalled := false, error := some "Text too long (max ~2MB)",
          publicUrl := none }) := by
  refine ⟨fun t u uv resp => rfl, ?_, ?_, ?_⟩
  · intro f t u uv resp hf
    simp [onSubmit, validateSubmit, hf]
  · intro fi t u uv resp ht
    simp [onSubmit, validateSubmit, ht]
  · intro fi t u uv resp ht hlen
    simp [onSubmit, validateSubmit, ht, hlen]

/-- C5, witness for the amended theorem: a missing file, an oversized
file, and blank text are each rejected before the network is reached. -/
theorem onSubmit_validates_before_convert_witness :
    onSubmit Mode.file none "" "" (fun _ => true) (NetResp.ok "d" "u") =
      { convertCalled := false, error := some "Please select a .docx/.md/.txt file",
        publicUrl := none } ∧
    onSubmit Mode.file (some { name := "big.docx", size := 20000000 }) "" ""
        (fun _ => true) (NetResp.ok "d" "u") =
      { convertCalled := false, error := some "File too large (max 15MB)",
        publicUrl := none } ∧
    onSubmit Mode.text none "   " "" (fun _ => true) (NetResp.ok "d" "u") =
      { convertCalled := false, error := some "Please paste or type some text",
        publicUrl := none } :=
  ⟨onSubmit_validates_before_convert.1 "" "" (fun _ => true) (NetResp.ok "d" "u"),
   onSubmit_validates_before_convert.2.1 { name := "big.docx", size := 20000000 }
     "" "" (fun _ => true) (NetResp.ok "d" "u") (by decide),
   onSubmit_validates_before_convert.2.2.1 none "   " "" (fun _ => true)
     (NetResp.ok "d" "u") (by decide)⟩

/-! ## C6 -/

/-- C6, counterexample.  The claim says the session-level aggregate error
banner is shown only for Combine failures and that a Convert failure sets
a per-slot error message.  In the code, the catch of `handleFileUpload`
calls `setError(e.message)` — the same session-level `error` field the
banner renders — and stores no per-slot message: after a single convert
failure the banner text is set even though no Combine call was ever
issued. -/
theorem convert_failure_sets_session_banner :
    (run initSys
      [Action.bind 0 "A.docx", Action.convertErr 0 (some "Request failed (413)")]).map
        (fun s => (s.session.error, s.calls.length, s.session.uploads.map UploadState.status))
      = some (some "Request failed (413)", 0,
              [UploadStatus.error, UploadStatus.waiting, UploadStatus.waiting]) := by
  rfl

/-- C6, amended.  A Convert failure for slot `i` is slot-local in its
status effect: it sets slot `i` to `error` and leaves every sibling slot,
the `busy` flag and all Combine state untouched — but the failure message
is surfaced through the session-level `error` field (the same banner used
for Combine failures); no per-slot error message exists. -/
theorem convert_failure_slot_local_but_banner_shared
    (sys : Sys) (i : Nat) (msg : Option String) (sys' : Sys)
    (h : step sys (Action.convertErr i msg) = some sys') :
    (∀ j, j ≠ i → sys'.session.uploads.get? j = sys.session.uploads.get? j) ∧
    sys'.session.uploads.get? i =
      (sys.session.uploads.get? i).map (fun u => { u with status := UploadStatus.error }) ∧
    sys'.session.error = some (msg.getD "Upload failed") ∧
    sys'.session.busy = sys.session.busy ∧
    sys'.pending = sys.pending ∧
    sys'.calls = sys.calls ∧
    sys'.completions = sys.completions := by
  simp only [step] at h
  split at h
  · injection h with h
    subst h
    refine ⟨?_, ?_, rfl, rfl, rfl, rfl, rfl⟩
    · intro j hj
      show (listModify sys.session.uploads i _).get? j = _
      rw [listModify_get?, if_neg hj]
    · show (listModify sys.session.uploads i _).get? i = _
      rw [listModify_get?, if_pos rfl]
  · exact Option.noConfusion h

/-- C6, witness for the amended theorem at a concrete convert failure on
slot 0 of the initial session. -/
theorem convert_failure_slot_local_but_banner_shared_witness :
    (let stepped : Sys :=
      { session := convertErrSlot initSession 0 (some "boom")
        pending := none, calls := [], completions := [] }
     stepped.session.uploads.get? 0 =
        (initSys.session.uploads.get? 0).map
          (fun u => { u with status := UploadStatus.error }) ∧
      stepped.session.error = some "boom" ∧
      stepped.session.busy = initSys.session.busy ∧
      stepped.calls = initSys.calls) := by
  have h := convert_failure_slot_local_but_banner_shared initSys 0 (some "boom")
    { session := convertErrSlot initSession 0 (some "boom")
      pending := none, calls := [], completions := [] } rfl
  exact ⟨h.2.1, h.2.2.1, h.2.2.2.1, h.2.2.2.2.2.1⟩

/-! ## C7 -/

/-- C7.  With a Combine call outstanding from an all-complete session, a
failure of that call (for instance HTTP 500, whose thrown message is
`Combine failed: 500`) sets the single session-level error, leaves every
slot — in particular each `complete` status and document id — exactly as
it was, and clears `busy`. -/
theorem combine_failure_leaves_slots_complete
    (sys : Sys) (c : CombineCall)
    (hp : sys.pending = some c) (hall : allComplete sys.session = true) :
    ∃ sys', step sys (Action.combineErr (some (combineErrorMsg 500))) = some sys' ∧
      sys'.session.uploads = sys.session.uploads ∧
      sys'.session.error = some (combineErrorMsg 500) ∧
      allComplete sys'.session = true ∧
      sys'.session.busy = false ∧
      sys'.session.combinedTitle = sys.session.combinedTitle := by
  refine ⟨{ sys with
              session := { sys.session with
                             busy := false
                             error := some (combineErrorMsg 500) }
              pending := none }, ?_, rfl, rfl, hall, rfl, rfl⟩
  simp [step, hp]

/-- C7, witness at a concrete outstanding-Combine state with all three
slots complete. -/
theorem combine_failure_leaves_slots_complete_witness :
    ∃ sys', step exPendingSys (Action.combineErr (some (combineErrorMsg 500))) = some sys' ∧
      sys'.session.uploads = exPendingSys.session.uploads ∧
      sys'.session.error = some (combineErrorMsg 500) ∧
      allComplete sys'.session = true ∧
      sys'.session.busy = false ∧
      sys'.session.combinedTitle = exPendingSys.session.combinedTitle :=
  combine_failure_leaves_slots_complete exPendingSys (mkCall exReadySession)
    rfl (by decide)

/-! ## C8 -/

/-- C8, counterexample.  The claim says binding an input is a no-op when
the addressed slot is neither `Waiting` nor `Failed`.  The code's
`handleFileUpload` has no status guard at all: after slot 0 reaches
`complete`, dropping another file on it changes its status to `uploading`
(starting a fresh Convert) instead of being a no-op. -/
theorem bind_not_noop_on_complete_slot :
    (run initSys
      [Action.bind 0 "A.docx", Action.convertOk 0 "idA" "A.docx"]).map
        (fun s => (s.session.uploads.get? 0).map UploadState.status)
      = some (some UploadStatus.complete) ∧
    (run initSys
      [Action.bind 0 "A.docx", Action.convertOk 0 "idA" "A.docx",
       Action.bind 0 "B.docx"]).map
        (fun s => (s.session.uploads.get? 0).map UploadState.status)
      = some (some UploadStatus.uploading) :=
  ⟨rfl, rfl⟩

/-- C8, amended.  For every `0 ≤ i < N`, binding an input to slot `i` is
never a no-op: whatever the slot's current status (`waiting`, `uploading`,
`complete` or `error` — so rebinding a failed slot, the retry path, is
allowed, but so is rebinding an in-flight or complete slot), the bind
stores the file, moves the slot to `uploading` (the Convert transition to
InFlight) and clears the session error. -/
theorem bind_always_starts_upload
    (sys : Sys) (i : Nat) (name : String)
    (h : i < sys.session.uploads.length) :
    step sys (Action.bind i name) =
      some { sys with session := bindSlot sys.session i name } ∧
    (bindSlot sys.session i name).uploads.get? i =
      (sys.session.uploads.get? i).map
        (fun u => { u with file := some name, status := UploadStatus.uploading }) ∧
    (bindSlot sys.session i name).error = none := by
  refine ⟨by simp [step, h], ?_, rfl⟩
  show (listModify sys.session.uploads i _).get? i = _
  rw [listModify_get?, if_pos rfl]

/-- C8, witness: binding a file to slot 0 of the initial session. -/
theorem bind_always_starts_upload_witness :
    step initSys (Action.bind 0 "A.docx") =
      some { initSys with session := bindSlot initSys.session 0 "A.docx" } ∧
    (bindSlot initSys.session 0 "A.docx").uploads.get? 0 =
      (initSys.session.uploads.get? 0).map
        (fun u => { u with file := some "A.docx", status := UploadStatus.uploading }) ∧
    (bindSlot initSys.session 0 "A.docx").error = none :=
  bind_always_starts_upload initSys 0 "A.docx" (by decide)

/-! ## C9 -/

/-- C9.  On a non-success response, `api.convert` throws the structured
error message decoded from the JSON body when a non-empty one is present
(`if (data?.error) msg = data.error`), and otherwise — body not JSON,
JSON without an `error` field, or an empty `error` string — falls back to
the generic `Request failed (<status>)` message. -/
theorem convert_error_message_decoding (st : Nat) (form : ConvertForm) :
    (∀ e : String, e ≠ "" →
      (apiConvert form (NetResp.err st (some (some e)))).result = Except.error e) ∧
    (apiConvert form (NetResp.err st (some (some "")))).result =
      Except.error ("Request failed (" ++ toString st ++ ")") ∧
    (apiConvert form (NetResp.err st (some none))).result =
      Except.error ("Request failed (" ++ toString st ++ ")") ∧
    (apiConvert form (NetResp.err st none)).result =
      Except.error ("Request failed (" ++ toString st ++ ")") := by
  refine ⟨?_, rfl, rfl, rfl⟩
  intro e he
  simp [apiConvert, convertErrorMsg, he]

/-- C9, witness at status 500: a structured message is carried through,
and a bodyless failure falls back to the status-coded message. -/
theorem convert_error_message_decoding_witness :
    (apiConvert { file := none, text := none, url := none }
      (NetResp.err 500 (some (some "Conversion failed")))).result =
        Except.error "Conversion failed" ∧
    (apiConvert { file := none, text := none, url := none }
      (NetResp.err 500 none)).result = Except.error "Request failed (500)" :=
  ⟨(convert_error_message_decoding 500
      { file := none, text := none, url := none }).1 "Conversion failed" (by decide),
   (convert_error_message_decoding 500
      { file := none, text := none, url := none }).2.2.2⟩

/-! ## C10 -/

/-- C10.  Every Combine call the orchestrator issues (the effect dispatch
appends exactly `mkCall` of the current session) carries a `titles` list of
the same length as `doc_ids` — one entry per slot, in slot order — and the
entry for slot `i` is the slot's stored title, or the default
`Report i+1` when the slot stores no (or an empty) title. -/
theorem combine_titles_paired_with_docIds
    (sys sys' : Sys) (h : step sys Action.fireEffect = some sys') :
    sys'.calls = sys.calls ++ [mkCall sys.session] ∧
    (mkCall sys.session).titles.length = (mkCall sys.session).doc_ids.length ∧
    (∀ i u, sys.session.uploads.get? i = some u →
      (mkCall sys.session).titles.get? i = some (titleOr u.title i) ∧
      (u.title = none → titleOr u.title i = "Report " ++ toString (i + 1)) ∧
      (∀ t, u.title = some t → t ≠ "" → titleOr u.title i = t)) := by
  have hcalls : sys'.calls = sys.calls ++ [mkCall sys.session] := by
    simp only [step] at h
    split at h
    · injection h with h
      subst h
      rfl
    · exact Option.noConfusion h
  refine ⟨hcalls, ?_, ?_⟩
  · show (titlesFrom 0 sys.session.uploads).length = _
    rw [titlesFrom_length]
    simp [mkCall]
  · intro i u hu
    refine ⟨?_, ?_, ?_⟩
    · show (titlesFrom 0 sys.session.uploads).get? i = _
      rw [titlesFrom_get?, hu]
      simp
    · intro ht
      simp [titleOr, ht, defaultReportTitle]
    · intro t ht hne
      simp [titleOr, ht, hne]

/-- C10, witness: the dispatch from a concrete all-complete idle session. -/
theorem combine_titles_paired_with_docIds_witness :
    (dispatchCombine
        { session := { exReadySession with busy := false }
          pending := none, calls := [], completions := [] }).calls =
      [] ++ [mkCall { exReadySession with busy := false }] ∧
    (mkCall { exReadySession with busy := false }).titles.length =
      (mkCall { exReadySession with busy := false }).doc_ids.length := by
  have h := combine_titles_paired_with_docIds
    { session := { exReadySession with busy := false }
      pending := none, calls := [], completions := [] }
    (dispatchCombine
      { session := { exReadySession with busy := false }
        pending := none, calls := [], completions := [] })
    (by decide)
  exact ⟨h.1, h.2.1⟩

end Textpress
